import Mathlib

/-!
Shallow embedding of `src/app.py`, a Flask inventory API over a single
SQLite table of products.  The store is modelled as a list of product
records plus the next auto-assigned primary key; every route becomes a
function from its request data and the store to a response (and, for the
mutating routes, the successor store).  Exceptions that Flask's generic
`handle_exception` converts to a 500 response are modelled by returning
that 500 response with the store unchanged (a failed commit leaves the
database untouched).
-/

/-- Embeds the `Product` model (src/app.py lines 13-17): columns `id`
(integer primary key), `barcode` (string, unique, not null), `name`
(string, not null), `price` (float, not null).  There is no `stock`
column.  Prices are modelled exactly as rationals; the routes only store,
echo, and compare them. -/
structure Product where
  id : Nat
  barcode : String
  name : String
  price : Rat
deriving Repr, DecidableEq

/-- Serialization `Product.to_dict` (lines 19-25) returns exactly the four
fields `id`, `barcode`, `name`, `price`; in the embedding a serialized
product is the record itself. -/
def Product.to_dict (p : Product) : Product := p

/-- The persisted state: the product table plus the next primary key the
engine will assign (SQLite rowid autoincrement, starting at 1). -/
structure Store where
  products : List Product
  nextId : Nat
deriving Repr, DecidableEq

/-- The empty database created by `db.create_all()` on startup. -/
def initStore : Store := ⟨[], 1⟩

/-- A signed JWT as produced by `create_access_token(identity={'username':
username})` (line 136): the claim set embeds the username. -/
structure Token where
  identityUsername : String
deriving Repr, DecidableEq

/-- JSON response bodies produced by the routes. -/
inductive RespBody where
  | product (p : Product)
  | productList (ps : List Product)
  | page (items : List Product) (total : Nat) (pages : Nat) (currentPage : Int)
  | error (msg : String)
  | message (msg : String)
  | token (t : Token)
deriving Repr, DecidableEq

/-- An HTTP response: status code plus JSON body. -/
structure Response where
  status : Nat
  body : RespBody
deriving Repr, DecidableEq

/-- JSON body of a create request: each of `barcode`, `name`, `price` is
present (`some`) or absent (`none`). -/
structure CreateBody where
  barcode : Option String
  name : Option String
  price : Option Rat
deriving Repr, DecidableEq

/-- JSON body of an update request: optional `name` and `price`. -/
structure UpdateBody where
  name : Option String
  price : Option Rat
deriving Repr, DecidableEq

/-- Python truthiness of `data.get('barcode')` / `data.get('name')`: absent
(`None`) and the empty string are falsy. -/
def truthyStr : Option String → Bool
  | none => false
  | some s => decide (s ≠ "")

/-- Python truthiness of `data.get('price')`: absent (`None`) and `0` (or
`0.0`) are falsy. -/
def truthyNum : Option Rat → Bool
  | none => false
  | some q => decide (q ≠ 0)

/-- The falsy-presence check on line 35: `not data.get('barcode') or not
data.get('name') or not data.get('price')`. -/
def missingField (body : CreateBody) : Bool :=
  !truthyStr body.barcode || !truthyStr body.name || !truthyNum body.price

/-- Whether some persisted product already carries barcode `b`; the
`unique=True` constraint on the `barcode` column (line 15) makes the
INSERT's commit raise `IntegrityError` exactly in this case. -/
def hasBarcode (s : Store) (b : String) : Bool :=
  s.products.any (fun q => q.barcode == b)

/-- The generic 500 response produced by `handle_exception`
(src/app.py lines 112-115) for any unhandled exception. -/
def genericError : Response := ⟨500, .error "An error occurred"⟩

/-- The 404 response produced by the `not_found` handler (lines 117-119),
triggered by `get_or_404` on a missing id. -/
def notFoundResp : Response := ⟨404, .error "Resource not found"⟩

/-- Embeds `add_product` (src/app.py lines 32-41), the unprotected POST
/api/products.  Falsy/absent `barcode`, `name` or `price` yields 400;
otherwise the product is constructed and committed.  A commit that
violates the `barcode` unique constraint raises `IntegrityError`, which
the generic handler turns into a 500, with the database unchanged. -/
def add_product (body : CreateBody) (s : Store) : Response × Store :=
  if missingField body then
    (⟨400, .error "Missing required fields"⟩, s)
  else
    match body.barcode, body.name, body.price with
    | some b, some n, some pr =>
      if hasBarcode s b then
        (genericError, s)
      else
        let prod : Product := ⟨s.nextId, b, n, pr⟩
        (⟨201, .product prod⟩, ⟨s.products ++ [prod], s.nextId + 1⟩)
    | _, _, _ => (⟨400, .error "Missing required fields"⟩, s)

/-- Embeds `add_product_protected` (src/app.py lines 44-55).  The route
runs only with a verified token; `identity` is the `username` embedded in
it.  A non-admin identity yields 403.  There is no presence validation:
`data['barcode']` (and likewise `name`, `price`) raises `KeyError` when
the key is absent, which the generic handler turns into a 500 with no
record persisted.  A duplicate barcode fails the commit as in
`add_product`. -/
def add_product_protected (identity : String) (body : CreateBody) (s : Store) :
    Response × Store :=
  if identity ≠ "admin" then
    (⟨403, .error "Unauthorized"⟩, s)
  else
    match body.barcode, body.name, body.price with
    | some b, some n, some pr =>
      if hasBarcode s b then
        (genericError, s)
      else
        let prod : Product := ⟨s.nextId, b, n, pr⟩
        (⟨201, .product prod⟩, ⟨s.products ++ [prod], s.nextId + 1⟩)
    | _, _, _ => (genericError, s)

/-- Embeds `get_product` (src/app.py lines 58-61): `get_or_404` then
serialize.  Read-only, so no successor store. -/
def get_product (i : Nat) (s : Store) : Response :=
  match s.products.find? (fun p => p.id == i) with
  | none => notFoundResp
  | some p => ⟨200, .product p.to_dict⟩

/-- Embeds `update_product` (src/app.py lines 63-70): `get_or_404`, then
`product.name = data.get('name', product.name)` and likewise for `price`,
then commit.  `id` and `barcode` are never touched. -/
def update_product (i : Nat) (body : UpdateBody) (s : Store) : Response × Store :=
  match s.products.find? (fun p => p.id == i) with
  | none => (notFoundResp, s)
  | some p =>
    let p' : Product := ⟨p.id, p.barcode, body.name.getD p.name, body.price.getD p.price⟩
    (⟨200, .product p'⟩,
     ⟨s.products.map (fun q => if q.id == i then p' else q), s.nextId⟩)

/-- Embeds `delete_product` (src/app.py lines 72-77): `get_or_404`, then
delete the row and commit. -/
def delete_product (i : Nat) (s : Store) : Response × Store :=
  match s.products.find? (fun p => p.id == i) with
  | none => (notFoundResp, s)
  | some _ =>
    (⟨200, .message "Product deleted"⟩,
     ⟨s.products.filter (fun q => q.id != i), s.nextId⟩)

/-- `hasPrefixCh needle hay`: `needle` is a prefix of `hay` (character
lists). -/
def hasPrefixCh : List Char → List Char → Bool
  | [], _ => true
  | _ :: _, [] => false
  | a :: as, b :: bs => a == b && hasPrefixCh as bs

/-- `hasSubCh needle hay`: `needle` occurs as a contiguous sublist of
`hay`. -/
def hasSubCh (needle : List Char) : List Char → Bool
  | [] => needle.isEmpty
  | c :: t => hasPrefixCh needle (c :: t) || hasSubCh needle t

/-- ASCII case folding: SQLite's default `LIKE` comparison folds the case
of the ASCII letters A-Z only. -/
def asciiLower (c : Char) : Char :=
  if 65 ≤ c.toNat ∧ c.toNat ≤ 90 then Char.ofNat (c.toNat + 32) else c

/-- SQLite `LIKE` pattern matching (no ESCAPE clause): `%` matches any
sequence of characters (the empty one included), `_` matches exactly one
character, and any other pattern character matches a single character up
to ASCII case folding. -/
def likeMatch : List Char → List Char → Bool
  | [], ts => ts.isEmpty
  | p :: ps, ts =>
    if p = '%' then
      (List.range (ts.length + 1)).any (fun k => likeMatch ps (ts.drop k))
    else
      match ts with
      | [] => false
      | c :: ts' =>
        (p == '_' || asciiLower p == asciiLower c) && likeMatch ps ts'

/-- The SQL pattern `'%' || q || '%'` built by `Column.contains(q)`:
the query text is spliced into the pattern with no escaping, so `%` and
`_` inside `q` stay active as wildcards. -/
def likePattern (q : String) : List Char :=
  '%' :: (q.data ++ ['%'])

/-- Embeds the SQLAlchemy operator `Column.contains(q)` on src/app.py
line 83: it emits `column LIKE '%' || q || '%'` (default
`autoescape=False`), evaluated by SQLite's `LIKE` — unescaped wildcards
and ASCII-case-insensitive comparison. -/
def columnContains (col q : String) : Bool :=
  likeMatch (likePattern q) col.data

/-- Embeds `search_products` (src/app.py lines 80-84):
`Product.query.filter(Product.name.contains(query) |
Product.barcode.contains(query))`.  An absent `query` makes both LIKE
comparisons evaluate to SQL NULL, so no row satisfies the filter and the
result is the empty list. -/
def search_products (query : Option String) (s : Store) : Response :=
  match query with
  | none => ⟨200, .productList []⟩
  | some q =>
    ⟨200, .productList
      (s.products.filter
        (fun p => columnContains p.name q || columnContains p.barcode q))⟩

/-- Declarative semantics of SQLite `LIKE` matching, used to state what
the search route returns: `LikeMatch pattern text`. -/
inductive LikeMatch : List Char → List Char → Prop where
  | nil : LikeMatch [] []
  | percent_skip {ps ts} : LikeMatch ps ts → LikeMatch ('%' :: ps) ts
  | percent_take {ps c ts} :
      LikeMatch ('%' :: ps) ts → LikeMatch ('%' :: ps) (c :: ts)
  | underscore {ps c ts} : LikeMatch ps ts → LikeMatch ('_' :: ps) (c :: ts)
  | ch {p c ps ts} : p ≠ '%' → p ≠ '_' → asciiLower p = asciiLower c →
      LikeMatch ps ts → LikeMatch (p :: ps) (c :: ts)

/-- Embeds `get_products` (src/app.py lines 86-96):
`request.args.get('page', 1, type=int)`, `request.args.get('per_page', 10,
type=int)`, then `paginate(page, per_page, error_out=False)`
(Flask-SQLAlchemy 2.x: with `error_out=False` a page below 1 is clamped to
1 and a negative per_page becomes 20; items are
`OFFSET (page-1)*per_page LIMIT per_page`; `pages` is
`ceil(total/per_page)`, `0` when `per_page` is `0`; `current_page` is the
clamped page). -/
def get_products (pageArg perPageArg : Option Int) (s : Store) : Response :=
  let page0 : Int := pageArg.getD 1
  let perPage0 : Int := perPageArg.getD 10
  let page : Int := if page0 < 1 then 1 else page0
  let perPage : Int := if perPage0 < 0 then 20 else perPage0
  let items := (s.products.drop ((page - 1) * perPage).toNat).take perPage.toNat
  let total := s.products.length
  let pages := if perPage = 0 then 0 else (total + perPage.toNat - 1) / perPage.toNat
  ⟨200, .page items total pages page⟩

/-- The `stock` attribute read on src/app.py line 103.  The `Product`
model (lines 13-17) declares no `stock` column and nothing else defines
such an attribute, so in Python the read raises `AttributeError`; the
embedding records the attribute's absence as `none`. -/
def product_stock (_ : Product) : Option Int := none

/-- Embeds `sell_product` (src/app.py lines 99-107): `get_or_404`, read
`quantity` (default 1), then `if product.stock < quantity`.  Because
`product_stock` is `none` for every product, the comparison raises
`AttributeError` and `handle_exception` answers 500 with the database
unchanged; the 400 insufficient-stock branch and the decrement-and-commit
branch (modelled on the source text) are unreachable. -/
def sell_product (i : Nat) (quantity : Option Int) (s : Store) : Response × Store :=
  match s.products.find? (fun p => p.id == i) with
  | none => (notFoundResp, s)
  | some p =>
    match product_stock p with
    | none => (genericError, s)
    | some stock =>
      if stock < quantity.getD 1 then
        (⟨400, .error "Not enough stock"⟩, s)
      else
        -- the write-back `product.stock -= quantity` also reads the
        -- missing attribute, so it too raises and yields the generic 500
        (genericError, s)

/-- Embeds `login` (src/app.py lines 130-138): succeeds exactly on the
literal pair ('admin', 'password'), issuing a token embedding the
username; every other pair (absent values included) yields 401. -/
def login (username password : Option String) : Response :=
  match username, password with
  | some u, some p =>
    if u = "admin" && p = "password" then
      ⟨200, .token ⟨u⟩⟩
    else
      ⟨401, .error "Invalid credentials"⟩
  | _, _ => ⟨401, .error "Invalid credentials"⟩

/-- The store states reachable from the freshly created database through
the state-mutating routes (the read-only routes return no successor
store). -/
inductive Reachable : Store → Prop where
  | init : Reachable initStore
  | step_create {s} (body : CreateBody) :
      Reachable s → Reachable (add_product body s).2
  | step_create_protected {s} (identity : String) (body : CreateBody) :
      Reachable s → Reachable (add_product_protected identity body s).2
  | step_update {s} (i : Nat) (body : UpdateBody) :
      Reachable s → Reachable (update_product i body s).2
  | step_delete {s} (i : Nat) :
      Reachable s → Reachable (delete_product i s).2
  | step_sell {s} (i : Nat) (q : Option Int) :
      Reachable s → Reachable (sell_product i q s).2

/-- No two persisted products share a barcode. -/
def BarcodesUnique (s : Store) : Prop :=
  s.products.Pairwise (fun p q => p.barcode ≠ q.barcode)

/-- Inductive store invariant: pairwise-distinct ids and barcodes, and
every id below the next key the engine will assign. -/
def StoreInv (s : Store) : Prop :=
  s.products.Pairwise (fun p q => p.id ≠ q.id ∧ p.barcode ≠ q.barcode) ∧
  ∀ p ∈ s.products, p.id < s.nextId

/-! ### Store invariant lemmas -/

theorem storeInv_init : StoreInv initStore := by
  constructor
  · exact List.Pairwise.nil
  · intro p hp; simp [initStore] at hp

theorem mem_id_eq {l : List Product}
    (h : l.Pairwise (fun p q => p.id ≠ q.id ∧ p.barcode ≠ q.barcode)) :
    ∀ a ∈ l, ∀ b ∈ l, a.id = b.id → a = b := by
  induction l with
  | nil => intro a ha; simp at ha
  | cons x t ih =>
    rcases List.pairwise_cons.mp h with ⟨hx, ht⟩
    intro a ha b hb hab
    rcases List.mem_cons.mp ha with ha1 | ha2
    · rcases List.mem_cons.mp hb with hb1 | hb2
      · rw [ha1, hb1]
      · rw [ha1] at hab ⊢
        exact absurd hab (hx b hb2).1
    · rcases List.mem_cons.mp hb with hb1 | hb2
      · rw [hb1] at hab ⊢
        exact absurd hab.symm (hx a ha2).1
      · exact ih ht a ha2 b hb2 hab

theorem storeInv_insert {s : Store} (h : StoreInv s) {b : String}
    (hb : hasBarcode s b = false) (n : String) (pr : Rat) :
    StoreInv ⟨s.products ++ [⟨s.nextId, b, n, pr⟩], s.nextId + 1⟩ := by
  obtain ⟨h1, h2⟩ := h
  have hb' : ∀ q ∈ s.products, q.barcode ≠ b := by
    have h0 : ∀ x ∈ s.products, ¬x.barcode = b := by simpa [hasBarcode] using hb
    exact h0
  constructor
  · rw [List.pairwise_append]
    refine ⟨h1, List.pairwise_singleton _ _, ?_⟩
    intro a ha c hc
    have hc' : c = ⟨s.nextId, b, n, pr⟩ := by simpa using hc
    subst hc'
    exact ⟨Nat.ne_of_lt (h2 a ha), hb' a ha⟩
  · intro p hp
    rcases List.mem_append.mp hp with hp | hp
    · exact Nat.lt_succ_of_lt (h2 p hp)
    · have : p = ⟨s.nextId, b, n, pr⟩ := by simpa using hp
      subst this; exact Nat.lt_succ_self _

theorem add_product_snd (body : CreateBody) (s : Store) :
    (add_product body s).2 = s ∨
    ∃ b n pr, body.barcode = some b ∧ hasBarcode s b = false ∧
      (add_product body s).2 = ⟨s.products ++ [⟨s.nextId, b, n, pr⟩], s.nextId + 1⟩ := by
  rcases body with ⟨bc, nm, pc⟩
  by_cases hmf : missingField ⟨bc, nm, pc⟩ = true
  · left; simp [add_product, hmf]
  · rcases bc with _ | b
    · exact absurd (by simp [missingField, truthyStr]) hmf
    · rcases nm with _ | n
      · exact absurd (by simp [missingField, truthyStr]) hmf
      · rcases pc with _ | pr
        · exact absurd (by simp [missingField, truthyNum]) hmf
        · by_cases hdup : hasBarcode s b = true
          · left; simp [add_product, hmf, hdup, genericError]
          · right
            refine ⟨b, n, pr, rfl, by simpa using hdup, ?_⟩
            simp [add_product, hmf, hdup]

theorem add_product_protected_snd (identity : String) (body : CreateBody)
    (s : Store) :
    (add_product_protected identity body s).2 = s ∨
    ∃ b n pr, body.barcode = some b ∧ hasBarcode s b = false ∧
      (add_product_protected identity body s).2 =
        ⟨s.products ++ [⟨s.nextId, b, n, pr⟩], s.nextId + 1⟩ := by
  rcases body with ⟨bc, nm, pc⟩
  by_cases hadm : identity = "admin"
  · rcases bc with _ | b
    · left; simp [add_product_protected, hadm]
    · rcases nm with _ | n
      · left; simp [add_product_protected, hadm]
      · rcases pc with _ | pr
        · left; simp [add_product_protected, hadm]
        · by_cases hdup : hasBarcode s b = true
          · left; simp [add_product_protected, hadm, hdup, genericError]
          · right
            refine ⟨b, n, pr, rfl, by simpa using hdup, ?_⟩
            simp [add_product_protected, hadm, hdup]
  · left; simp [add_product_protected, hadm]

theorem storeInv_add_product {s : Store} (h : StoreInv s) (body : CreateBody) :
    StoreInv (add_product body s).2 := by
  rcases add_product_snd body s with heq | ⟨b, n, pr, _, hdup, heq⟩
  · rw [heq]; exact h
  · rw [heq]; exact storeInv_insert h hdup n pr

theorem storeInv_add_product_protected {s : Store} (h : StoreInv s)
    (identity : String) (body : CreateBody) :
    StoreInv (add_product_protected identity body s).2 := by
  rcases add_product_protected_snd identity body s with heq | ⟨b, n, pr, _, hdup, heq⟩
  · rw [heq]; exact h
  · rw [heq]; exact storeInv_insert h hdup n pr

theorem storeInv_update_product {s : Store} (h : StoreInv s) (i : Nat)
    (body : UpdateBody) : StoreInv (update_product i body s).2 := by
  obtain ⟨h1, h2⟩ := h
  unfold update_product
  split
  · exact ⟨h1, h2⟩
  · rename_i p hp
    have hpmem : p ∈ s.products := List.mem_of_find?_eq_some hp
    have hpid : p.id = i := by
      have := List.find?_some hp
      simpa using this
    constructor
    · rw [List.pairwise_map]
      refine List.Pairwise.imp_of_mem ?_ h1
      intro a c ha hc hac
      by_cases hai : (a.id == i) = true
      · have ha' : a.id = i := by simpa using hai
        have hap : a = p := mem_id_eq h1 a ha p hpmem (by rw [ha', hpid])
        by_cases hci : (c.id == i) = true
        · have hc' : c.id = i := by simpa using hci
          exact absurd (ha'.trans hc'.symm) hac.1
        · rw [if_pos hai, if_neg hci]
          refine ⟨?_, ?_⟩
          · show p.id ≠ c.id
            rw [hpid]
            intro hcontra
            exact (by simpa using hci : ¬c.id = i) hcontra.symm
          · show p.barcode ≠ c.barcode
            rw [← hap]
            exact hac.2
      · by_cases hci : (c.id == i) = true
        · have hc' : c.id = i := by simpa using hci
          have hcp : c = p := mem_id_eq h1 c hc p hpmem (by rw [hc', hpid])
          rw [if_neg hai, if_pos hci]
          refine ⟨?_, ?_⟩
          · show a.id ≠ p.id
            rw [hpid]
            simpa using hai
          · show a.barcode ≠ p.barcode
            rw [← hcp]
            exact hac.2
        · rw [if_neg hai, if_neg hci]
          exact hac
    · intro q hq
      rcases List.mem_map.mp hq with ⟨a, ha, rfl⟩
      by_cases hai : (a.id == i) = true
      · rw [if_pos hai]
        show p.id < s.nextId
        exact h2 p hpmem
      · rw [if_neg hai]
        exact h2 a ha

theorem storeInv_delete_product {s : Store} (h : StoreInv s) (i : Nat) :
    StoreInv (delete_product i s).2 := by
  obtain ⟨h1, h2⟩ := h
  unfold delete_product
  split
  · exact ⟨h1, h2⟩
  · constructor
    · exact List.Pairwise.filter _ h1
    · intro q hq
      exact h2 q (List.mem_of_mem_filter hq)

theorem sell_product_snd (i : Nat) (q : Option Int) (s : Store) :
    (sell_product i q s).2 = s := by
  unfold sell_product
  split
  · rfl
  · simp only [product_stock]

theorem storeInv_sell_product {s : Store} (h : StoreInv s) (i : Nat)
    (q : Option Int) : StoreInv (sell_product i q s).2 := by
  rw [sell_product_snd]
  exact h

theorem reachable_storeInv {s : Store} (hs : Reachable s) : StoreInv s := by
  induction hs with
  | init => exact storeInv_init
  | step_create body _ ih => exact storeInv_add_product ih body
  | step_create_protected identity body _ ih =>
      exact storeInv_add_product_protected ih identity body
  | step_update i body _ ih => exact storeInv_update_product ih i body
  | step_delete i _ ih => exact storeInv_delete_product ih i
  | step_sell i q _ ih => exact storeInv_sell_product ih i q

/-! ### Substring lemmas -/

theorem hasPrefixCh_iff (needle hay : List Char) :
    hasPrefixCh needle hay = true ↔ ∃ suf, hay = needle ++ suf := by
  induction needle generalizing hay with
  | nil => simp [hasPrefixCh]
  | cons a as ih =>
    cases hay with
    | nil => simp [hasPrefixCh]
    | cons b bs =>
      simp only [hasPrefixCh, Bool.and_eq_true, beq_iff_eq, ih, List.cons_append,
        List.cons.injEq]
      constructor
      · rintro ⟨rfl, suf, rfl⟩
        exact ⟨suf, rfl, rfl⟩
      · rintro ⟨suf, rfl, rfl⟩
        exact ⟨rfl, suf, rfl⟩

theorem hasSubCh_iff (needle hay : List Char) :
    hasSubCh needle hay = true ↔ ∃ pre suf, hay = pre ++ needle ++ suf := by
  induction hay with
  | nil =>
    simp only [hasSubCh, List.isEmpty_iff]
    constructor
    · rintro rfl
      exact ⟨[], [], rfl⟩
    · rintro ⟨pre, suf, h⟩
      rcases List.append_eq_nil.mp h.symm with ⟨h1, h2⟩
      exact (List.append_eq_nil.mp h1).2
  | cons c t ih =>
    simp only [hasSubCh, Bool.or_eq_true, hasPrefixCh_iff, ih]
    constructor
    · rintro (⟨suf, heq⟩ | ⟨pre, suf, heq⟩)
      · exact ⟨[], suf, by simp [heq]⟩
      · exact ⟨c :: pre, suf, by simp [heq]⟩
    · rintro ⟨pre, suf, heq⟩
      cases pre with
      | nil =>
        left
        exact ⟨suf, by simpa using heq⟩
      | cons d pre' =>
        right
        rcases List.cons_eq_cons.mp (by simpa using heq) with ⟨rfl, h2⟩
        exact ⟨pre', suf, by rw [h2, List.append_assoc]⟩

/-! ### LIKE-matching lemmas -/

theorem likeMatch_percent {ps ts : List Char} {k : Nat}
    (h : LikeMatch ps (ts.drop k)) : LikeMatch ('%' :: ps) ts := by
  induction ts generalizing k with
  | nil => exact LikeMatch.percent_skip (by simpa using h)
  | cons c ts' ih =>
    cases k with
    | zero => exact LikeMatch.percent_skip (by simpa using h)
    | succ k' => exact LikeMatch.percent_take (ih (by simpa using h))

theorem likeMatch_sound {ps ts : List Char} (h : likeMatch ps ts = true) :
    LikeMatch ps ts := by
  induction ps generalizing ts with
  | nil =>
    have hts : ts = [] := by simpa [likeMatch] using h
    rw [hts]
    exact LikeMatch.nil
  | cons p ps ih =>
    by_cases hp : p = '%'
    · subst hp
      simp only [likeMatch, if_true, List.any_eq_true] at h
      obtain ⟨k, _, hlk⟩ := h
      exact likeMatch_percent (ih hlk)
    · cases ts with
      | nil => simp [likeMatch, hp] at h
      | cons c ts' =>
        simp only [likeMatch] at h
        rw [if_neg hp] at h
        simp only [Bool.and_eq_true, Bool.or_eq_true, beq_iff_eq] at h
        obtain ⟨h1, h2⟩ := h
        rcases h1 with h1 | h1
        · subst h1
          exact LikeMatch.underscore (ih h2)
        · by_cases hu : p = '_'
          · subst hu
            exact LikeMatch.underscore (ih h2)
          · exact LikeMatch.ch hp hu h1 (ih h2)

theorem likeMatch_complete {ps ts : List Char} (h : LikeMatch ps ts) :
    likeMatch ps ts = true := by
  induction h with
  | nil => rfl
  | percent_skip h ih =>
    simp only [likeMatch, if_true, List.any_eq_true]
    exact ⟨0, by simp, by simpa using ih⟩
  | percent_take h ih =>
    rename_i ps c ts
    simp only [likeMatch, if_true, List.any_eq_true] at ih ⊢
    obtain ⟨k, hk, hlk⟩ := ih
    have hk' : k < ts.length + 1 := by simpa using hk
    refine ⟨k + 1, ?_, by simpa using hlk⟩
    simp only [List.mem_range, List.length_cons]
    omega
  | underscore h ih =>
    simp only [likeMatch]
    rw [if_neg (by decide)]
    simp [ih]
  | ch hne1 hne2 heq h ih =>
    simp only [likeMatch]
    rw [if_neg hne1]
    simp [ih, heq]

theorem likeMatch_iff (ps ts : List Char) :
    likeMatch ps ts = true ↔ LikeMatch ps ts :=
  ⟨likeMatch_sound, likeMatch_complete⟩

theorem likeMatch_append {p1 t1 p2 t2 : List Char}
    (h1 : LikeMatch p1 t1) (h2 : LikeMatch p2 t2) :
    LikeMatch (p1 ++ p2) (t1 ++ t2) := by
  induction h1 with
  | nil => simpa using h2
  | percent_skip h ih => exact LikeMatch.percent_skip ih
  | percent_take h ih => exact LikeMatch.percent_take ih
  | underscore h ih => exact LikeMatch.underscore ih
  | ch hne1 hne2 heq h ih => exact LikeMatch.ch hne1 hne2 heq ih

theorem likeMatch_self (q : List Char) : LikeMatch q q := by
  induction q with
  | nil => exact LikeMatch.nil
  | cons c cs ih =>
    by_cases h1 : c = '%'
    · subst h1
      exact LikeMatch.percent_take (LikeMatch.percent_skip ih)
    · by_cases h2 : c = '_'
      · subst h2
        exact LikeMatch.underscore ih
      · exact LikeMatch.ch h1 h2 rfl ih

theorem likeMatch_any (ts : List Char) : LikeMatch ['%'] ts := by
  induction ts with
  | nil => exact LikeMatch.percent_skip LikeMatch.nil
  | cons c ts ih => exact LikeMatch.percent_take ih

theorem substring_likeMatch (q pre suf : List Char) :
    LikeMatch ('%' :: (q ++ ['%'])) (pre ++ q ++ suf) := by
  induction pre with
  | nil =>
    apply LikeMatch.percent_skip
    simpa using likeMatch_append (likeMatch_self q) (likeMatch_any suf)
  | cons c pre ih =>
    exact LikeMatch.percent_take ih

theorem columnContains_iff (col q : String) :
    columnContains col q = true ↔ LikeMatch (likePattern q) col.data :=
  likeMatch_iff (likePattern q) col.data

/-! ### Claim theorems -/

/-- A one-product store used to evaluate the sell route: product id 1,
barcode "111", name "Widget", price 10. -/
def sellStore : Store := ⟨[⟨1, "111", "Widget", 10⟩], 2⟩

/-- Claim C1: the spec says `sell(id, quantity)` of an existing product
with sufficient stock returns 200 and persists the decremented stock.  The
code cannot do this for any product: `Product` has no stock column, the
read of `product.stock` raises `AttributeError`, and the generic handler
answers 500 with the store unchanged.  Evaluation at the failing input
(product id 1, quantity 1, the default). -/
theorem C1_sell_bug_eval :
    sell_product 1 (some 1) sellStore = (genericError, sellStore) ∧
    (sell_product 1 (some 1) sellStore).1.status ≠ 200 := by
  refine ⟨rfl, ?_⟩
  decide

/-- Claim C2: the spec says `sell(id, quantity)` with quantity above the
current stock returns 400 (insufficient stock) with the stock unchanged.
The code never reaches that branch: the read of `product.stock` raises
`AttributeError` first and the generic handler answers 500.  Evaluation
at the failing input (product id 1, quantity 5). -/
theorem C2_sell_bug_eval :
    sell_product 1 (some 5) sellStore = (genericError, sellStore) ∧
    (sell_product 1 (some 5) sellStore).1.status ≠ 400 := by
  refine ⟨rfl, ?_⟩
  decide

/-- Claim C3: the `Product` schema has exactly id, barcode, name, price —
no stock attribute exists (`product_stock` is `none` for every product) —
so for every existing product id the sell route falls through to the
generic handler: status 500, store unchanged, never 200 and never the 400
insufficient-stock error. -/
theorem C3_sell_always_500 (s : Store) (i : Nat) (p : Product)
    (hp : s.products.find? (fun q => q.id == i) = some p) (q : Option Int) :
    product_stock p = none ∧
    sell_product i q s = (genericError, s) ∧
    genericError.status = 500 := by
  refine ⟨rfl, ?_, rfl⟩
  unfold sell_product
  rw [hp]
  rfl

theorem C3_sell_always_500_witness :
    sellStore.products.find? (fun q => q.id == 1) = some ⟨1, "111", "Widget", 10⟩ ∧
    (product_stock ⟨1, "111", "Widget", 10⟩ = none ∧
     sell_product 1 (some 2) sellStore = (genericError, sellStore) ∧
     genericError.status = 500) :=
  ⟨rfl, C3_sell_always_500 sellStore 1 ⟨1, "111", "Widget", 10⟩ rfl (some 2)⟩

/-- A one-product store whose single product carries barcode "123". -/
def dupStore : Store := ⟨[⟨1, "123", "Alpha", 5⟩], 2⟩

/-- Claim C4 (counterexample): the claim's otherwise-branch — "otherwise
it returns 201 with a body echoing the input" — fails when the request's
barcode already exists: all three fields are present and truthy, yet the
commit violates the unique constraint and the route answers the generic
500, not 201. -/
theorem C4_create_counterexample :
    missingField ⟨some "123", some "Beta", some 7⟩ = false ∧
    (add_product ⟨some "123", some "Beta", some 7⟩ dupStore).1.status = 500 ∧
    (add_product ⟨some "123", some "Beta", some 7⟩ dupStore).1.status ≠ 201 ∧
    (add_product ⟨some "123", some "Beta", some 7⟩ dupStore).2 = dupStore := by
  refine ⟨rfl, rfl, ?_, rfl⟩
  decide

/-- Claim C4 (amended): a create request with any of barcode, name, price
absent or falsy (price 0 included) returns 400 with the missing-field
error and leaves the store unchanged; otherwise, provided no persisted
product already carries the request's barcode, it returns 201 echoing the
input barcode, name and price (with the freshly assigned id) and persists
the record — while with a duplicate barcode the commit fails with the
generic 500 and nothing is persisted. -/
theorem C4_create_validation (body : CreateBody) (s : Store) :
    (missingField body = true →
      add_product body s = (⟨400, .error "Missing required fields"⟩, s)) ∧
    (missingField body = false →
      ∀ b n pr, body.barcode = some b → body.name = some n →
        body.price = some pr →
        (hasBarcode s b = false →
          add_product body s =
            (⟨201, .product ⟨s.nextId, b, n, pr⟩⟩,
             ⟨s.products ++ [⟨s.nextId, b, n, pr⟩], s.nextId + 1⟩)) ∧
        (hasBarcode s b = true →
          add_product body s = (genericError, s))) := by
  constructor
  · intro hmf
    simp [add_product, hmf]
  · intro hmf b n pr hb hn hpr
    constructor
    · intro hdup
      simp [add_product, hmf, hb, hn, hpr, hdup]
    · intro hdup
      simp [add_product, hmf, hb, hn, hpr, hdup]

theorem C4_create_validation_witness :
    add_product ⟨some "9", none, some 3⟩ initStore =
      (⟨400, .error "Missing required fields"⟩, initStore) ∧
    add_product ⟨some "9", some "Gamma", some 3⟩ initStore =
      (⟨201, .product ⟨1, "9", "Gamma", 3⟩⟩, ⟨[⟨1, "9", "Gamma", 3⟩], 2⟩) :=
  ⟨(C4_create_validation ⟨some "9", none, some 3⟩ initStore).1 rfl,
   ((C4_create_validation ⟨some "9", some "Gamma", some 3⟩ initStore).2 rfl
      "9" "Gamma" 3 rfl rfl rfl).1 rfl⟩

/-- Claim C5: barcode uniqueness is an invariant of every reachable store
state, and a create whose barcode equals that of an already-persisted
product fails (status is not 201 and the store is unchanged). -/
theorem C5_barcode_unique (s : Store) (hs : Reachable s) :
    BarcodesUnique s ∧
    ∀ (body : CreateBody) (b : String), body.barcode = some b →
      hasBarcode s b = true →
      (add_product body s).1.status ≠ 201 ∧ (add_product body s).2 = s := by
  constructor
  · exact ((reachable_storeInv hs).1).imp (fun h => h.2)
  · intro body b hb hdup
    rcases add_product_snd body s with heq | ⟨b', n', pr', hb', hd', heq⟩
    · refine ⟨?_, heq⟩
      by_cases hmf : missingField body = true
      · simp [add_product, hmf]
      · rcases body with ⟨bc, nm, pc⟩
        cases hb
        rcases nm with _ | n
        · exact absurd (by simp [missingField, truthyStr]) hmf
        · rcases pc with _ | pr
          · exact absurd (by simp [missingField, truthyNum]) hmf
          · simp [add_product, hmf, hdup, genericError]
    · rw [hb] at hb'
      cases hb'
      rw [hd'] at hdup
      cases hdup

/-- The store reached by a single successful create against the empty
database. -/
def c5Store : Store := (add_product ⟨some "777", some "Delta", some 4⟩ initStore).2

theorem C5_barcode_unique_witness :
    BarcodesUnique c5Store ∧
    ∀ (body : CreateBody) (b : String), body.barcode = some b →
      hasBarcode c5Store b = true →
      (add_product body c5Store).1.status ≠ 201 ∧
      (add_product body c5Store).2 = c5Store :=
  C5_barcode_unique c5Store (Reachable.step_create _ Reachable.init)

/-- Claim C6: pagination defaults to page 1 and per_page 10 when the
query parameters are absent; a page past the end of the data yields an
empty item list with status 200 rather than an error; and against exactly
3 stored products, page 2 with per_page 1 returns exactly one item with
total 3, pages 3, current_page 2. -/
theorem C6_pagination (s : Store) :
    get_products none none s = get_products (some 1) (some 10) s ∧
    (∀ page perPage : Int, 1 ≤ page → 0 ≤ perPage →
      (s.products.length : Int) ≤ (page - 1) * perPage →
      ∃ total pages, get_products (some page) (some perPage) s =
        ⟨200, .page [] total pages page⟩) ∧
    (s.products.length = 3 →
      ∃ items, items.length = 1 ∧
        get_products (some 2) (some 1) s = ⟨200, .page items 3 3 2⟩) := by
  refine ⟨rfl, ?_, ?_⟩
  · intro page perPage hpage hper hout
    refine ⟨s.products.length,
      if perPage = 0 then 0
      else (s.products.length + perPage.toNat - 1) / perPage.toNat, ?_⟩
    unfold get_products
    simp only [Option.getD_some]
    rw [if_neg (by omega), if_neg (by omega)]
    have hdrop : s.products.drop ((page - 1) * perPage).toNat = [] := by
      apply List.drop_eq_nil_of_le
      omega
    rw [hdrop, List.take_nil]
  · intro hlen
    refine ⟨(s.products.drop 1).take 1, ?_, ?_⟩
    · simp [List.length_take, List.length_drop, hlen]
    · unfold get_products
      simp only [Option.getD_some]
      norm_num
      rw [hlen]

theorem C6_pagination_witness :
    (get_products none none sellStore = get_products (some 1) (some 10) sellStore) ∧
    (∃ total pages, get_products (some 4) (some 1) sellStore =
      ⟨200, .page [] total pages 4⟩) ∧
    (∃ items, items.length = 1 ∧
      get_products (some 2) (some 1) ⟨[⟨1, "a", "x", 1⟩, ⟨2, "b", "y", 2⟩,
        ⟨3, "c", "z", 3⟩], 4⟩ = ⟨200, .page items 3 3 2⟩) :=
  ⟨(C6_pagination sellStore).1,
   (C6_pagination sellStore).2.1 4 1 (by decide) (by decide) (by decide),
   (C6_pagination ⟨[⟨1, "a", "x", 1⟩, ⟨2, "b", "y", 2⟩,
     ⟨3, "c", "z", 3⟩], 4⟩).2.2 rfl⟩

/-- Claim C7: update of an existing product answers 200 with a product
whose id and barcode are those of the stored product (no request body can
change them), whose name and price fall back to the prior values when
omitted and take the request's values when present; the persisted store
replaces only that product. -/
theorem C7_update_frame (s : Store) (i : Nat) (p : Product) (body : UpdateBody)
    (hp : s.products.find? (fun q => q.id == i) = some p) :
    ∃ p', update_product i body s =
        (⟨200, .product p'⟩,
         ⟨s.products.map (fun q => if q.id == i then p' else q), s.nextId⟩) ∧
      p'.id = p.id ∧ p'.barcode = p.barcode ∧
      (body.name = none → p'.name = p.name) ∧
      (body.price = none → p'.price = p.price) ∧
      (∀ n, body.name = some n → p'.name = n) ∧
      (∀ pr, body.price = some pr → p'.price = pr) := by
  refine ⟨⟨p.id, p.barcode, body.name.getD p.name, body.price.getD p.price⟩,
    ?_, rfl, rfl, ?_, ?_, ?_, ?_⟩
  · unfold update_product
    rw [hp]
  · intro h; rw [h]; rfl
  · intro h; rw [h]; rfl
  · intro n h; rw [h]; rfl
  · intro pr h; rw [h]; rfl

theorem C7_update_frame_witness :
    ∃ p', update_product 1 ⟨none, some 12.5⟩ ⟨[⟨1, "222", "Gadget", 3⟩], 2⟩ =
        (⟨200, .product p'⟩,
         ⟨[⟨1, "222", "Gadget", 3⟩].map
            (fun q => if q.id == 1 then p' else q), 2⟩) ∧
      p'.id = 1 ∧ p'.barcode = "222" ∧
      ((none : Option String) = none → p'.name = "Gadget") ∧
      ((some (12.5 : Rat)) = none → p'.price = 3) ∧
      (∀ n, (none : Option String) = some n → p'.name = n) ∧
      (∀ pr, (some (12.5 : Rat)) = some pr → p'.price = pr) :=
  C7_update_frame ⟨[⟨1, "222", "Gadget", 3⟩], 2⟩ 1 ⟨1, "222", "Gadget", 3⟩
    ⟨none, some 12.5⟩ rfl

/-- Claim C8: login answers 200 with a signed token embedding the
username exactly for the literal pair ("admin", "password"); every other
pair — absent fields included — answers 401 with the invalid-credentials
error. -/
theorem C8_login (username password : Option String) :
    (username = some "admin" ∧ password = some "password" →
      login username password = ⟨200, .token ⟨"admin"⟩⟩) ∧
    (¬(username = some "admin" ∧ password = some "password") →
      login username password = ⟨401, .error "Invalid credentials"⟩) := by
  constructor
  · rintro ⟨rfl, rfl⟩
    rfl
  · intro h
    rcases username with _ | u
    · rfl
    · rcases password with _ | p
      · rfl
      · by_cases hu : u = "admin"
        · by_cases hp : p = "password"
          · exact absurd ⟨by rw [hu], by rw [hp]⟩ h
          · simp [login, hu, hp]
        · simp [login, hu]

theorem C8_login_witness :
    login (some "admin") (some "password") = ⟨200, .token ⟨"admin"⟩⟩ ∧
    login (some "admin") (some "wrong") = ⟨401, .error "Invalid credentials"⟩ :=
  ⟨(C8_login (some "admin") (some "password")).1 ⟨rfl, rfl⟩,
   (C8_login (some "admin") (some "wrong")).2 (by simp)⟩

/-- Claim C9 (counterexample): the claim says search returns exactly the
products whose name or barcode contains the text as a substring.  The
source emits an unescaped `LIKE '%' || query || '%'`, so a `%` in the
query acts as a wildcard: query "a%b" returns the product named "axxb"
even though neither its name nor its barcode contains "a%b" as a
substring. -/
theorem C9_search_counterexample :
    search_products (some "a%b") ⟨[⟨1, "zzz", "axxb", 1⟩], 2⟩ =
      ⟨200, .productList [⟨1, "zzz", "axxb", 1⟩]⟩ ∧
    ¬((∃ pre suf, ("axxb" : String).data = pre ++ ("a%b" : String).data ++ suf) ∨
      (∃ pre suf, ("zzz" : String).data = pre ++ ("a%b" : String).data ++ suf)) := by
  constructor
  · rfl
  · rintro (h | h) <;> rw [← hasSubCh_iff] at h <;> exact absurd h (by decide)

/-- Claim C9 (amended): for every store and every present query text,
search answers 200 with exactly the products whose name or barcode
matches the SQL pattern `'%' || text || '%'` under SQLite LIKE semantics
(`%` and `_` inside the text act as unescaped wildcards, ASCII letters
compare case-insensitively); in particular every product whose name or
barcode contains the text literally as a substring is returned, and when
no product matches the result is the empty list with status 200. -/
theorem C9_search_like (s : Store) (q : String) :
    ∃ l, search_products (some q) s = ⟨200, .productList l⟩ ∧
      (∀ p : Product, p ∈ l ↔ p ∈ s.products ∧
        (LikeMatch (likePattern q) p.name.data ∨
         LikeMatch (likePattern q) p.barcode.data)) ∧
      (∀ p ∈ s.products,
        ((∃ pre suf, p.name.data = pre ++ q.data ++ suf) ∨
         (∃ pre suf, p.barcode.data = pre ++ q.data ++ suf)) → p ∈ l) ∧
      ((∀ p ∈ s.products,
          ¬(LikeMatch (likePattern q) p.name.data ∨
            LikeMatch (likePattern q) p.barcode.data)) → l = []) := by
  have hmem : ∀ p : Product,
      p ∈ s.products.filter
        (fun p => columnContains p.name q || columnContains p.barcode q) ↔
      p ∈ s.products ∧
        (LikeMatch (likePattern q) p.name.data ∨
         LikeMatch (likePattern q) p.barcode.data) := by
    intro p
    rw [List.mem_filter]
    simp only [Bool.or_eq_true]
    constructor
    · rintro ⟨hm, hc | hc⟩
      · exact ⟨hm, Or.inl ((columnContains_iff _ _).mp hc)⟩
      · exact ⟨hm, Or.inr ((columnContains_iff _ _).mp hc)⟩
    · rintro ⟨hm, hc | hc⟩
      · exact ⟨hm, Or.inl ((columnContains_iff _ _).mpr hc)⟩
      · exact ⟨hm, Or.inr ((columnContains_iff _ _).mpr hc)⟩
  refine ⟨s.products.filter
    (fun p => columnContains p.name q || columnContains p.barcode q),
    rfl, hmem, ?_, ?_⟩
  · intro p hp hsub
    refine (hmem p).mpr ⟨hp, ?_⟩
    rcases hsub with ⟨pre, suf, heq⟩ | ⟨pre, suf, heq⟩
    · refine Or.inl ?_
      rw [heq]
      exact substring_likeMatch q.data pre suf
    · refine Or.inr ?_
      rw [heq]
      exact substring_likeMatch q.data pre suf
  · intro hnone
    rw [List.filter_eq_nil_iff]
    intro p hp hmatch
    apply hnone p hp
    rcases (by simpa using hmatch :
        columnContains p.name q = true ∨ columnContains p.barcode q = true)
      with hc | hc
    · exact Or.inl ((columnContains_iff _ _).mp hc)
    · exact Or.inr ((columnContains_iff _ _).mp hc)

theorem C9_search_like_witness :
    ∃ l, search_products (some "ab")
        ⟨[⟨1, "xaby", "foo", 1⟩, ⟨2, "zzz", "drab", 2⟩], 3⟩ =
        ⟨200, .productList l⟩ ∧
      (∀ p : Product, p ∈ l ↔
        p ∈ ([⟨1, "xaby", "foo", 1⟩, ⟨2, "zzz", "drab", 2⟩] : List Product) ∧
        (LikeMatch (likePattern "ab") p.name.data ∨
         LikeMatch (likePattern "ab") p.barcode.data)) ∧
      (∀ p ∈ ([⟨1, "xaby", "foo", 1⟩, ⟨2, "zzz", "drab", 2⟩] : List Product),
        ((∃ pre suf, p.name.data = pre ++ ("ab" : String).data ++ suf) ∨
         (∃ pre suf, p.barcode.data = pre ++ ("ab" : String).data ++ suf)) →
        p ∈ l) ∧
      ((∀ p ∈ ([⟨1, "xaby", "foo", 1⟩, ⟨2, "zzz", "drab", 2⟩] : List Product),
          ¬(LikeMatch (likePattern "ab") p.name.data ∨
            LikeMatch (likePattern "ab") p.barcode.data)) → l = []) :=
  C9_search_like ⟨[⟨1, "xaby", "foo", 1⟩, ⟨2, "zzz", "drab", 2⟩], 3⟩ "ab"

/-- Claim C10: the protected create route validates nothing: with an admin
identity and a body missing barcode, name or price, it does not answer the
unprotected route's 400 missing-field error — the subscript on the absent
key raises `KeyError`, the generic handler answers 500, and nothing is
persisted. -/
theorem C10_protected_no_validation (s : Store) (body : CreateBody)
    (hmiss : body.barcode = none ∨ body.name = none ∨ body.price = none) :
    add_product_protected "admin" body s = (genericError, s) ∧
    genericError.status = 500 ∧ genericError.status ≠ 400 := by
  refine ⟨?_, rfl, by decide⟩
  rcases body with ⟨bc, nm, pc⟩
  rcases hmiss with hm | hm | hm
  · cases hm
    simp [add_product_protected]
  · cases hm
    rcases bc with _ | b <;> simp [add_product_protected]
  · cases hm
    rcases bc with _ | b <;> rcases nm with _ | n <;> simp [add_product_protected]

theorem C10_protected_no_validation_witness :
    add_product_protected "admin" ⟨none, some "X", some 1⟩ initStore =
      (genericError, initStore) ∧
    genericError.status = 500 ∧ genericError.status ≠ 400 :=
  C10_protected_no_validation initStore ⟨none, some "X", some 1⟩ (Or.inl rfl)
